import Mathlib

/-!
Verification of the persona/content-plan report compiler of
`src/frontend/src/pages/MessagesAnalysis.jsx`.

The compiler is shallowly embedded.  The external drawing backend (jsPDF)
is abstracted by parameters: `split` models `doc.splitTextToSize` (text
wrapping at a given width), `stripE` models the emoji-stripping regex
replacement, and `parse` models `JSON.parse` applied to the reactions
field.  JavaScript truthiness on optional strings (`x || 'text'`,
`if (msg.forward_from)`) is modelled explicitly: `null`/`undefined` and
`""` are falsy; on optional numbers, `0` is falsy.

Units: the source draws on an A4 page in millimetres and every vertical
constant it uses is a multiple of 0.5 mm (3, 5, 4, 3.5, 2.5, 1, …).  The
embedding measures all vertical distances in ℤ in units of 0.5 mm, i.e.
every constant of the source appears multiplied by 2 (3.5 mm → 7, 15 mm
→ 30, page height 297 mm → 594).  This keeps the whole layout model in
exact integer arithmetic.  The view-count formatter, which divides by
1000, is modelled separately over ℚ.
-/

/-- JS `s || d` for an optional string: `null`/`undefined` and `""` are falsy. -/
def jsStrOr (s : Option String) (d : String) : String :=
  match s with
  | none => d
  | some s => if s = "" then d else s

/-- JS truthiness of an optional string. -/
def jsTruthy (s : Option String) : Bool :=
  match s with
  | none => false
  | some s => if s = "" then false else true

/-- JS `String.prototype.trim`: strip leading and trailing whitespace.
(`String.trim` of the Lean core library is extensionally the same but is
not kernel-reducible, so the list-based equivalent is used.) -/
def jsTrim (s : String) : String :=
  ⟨((s.data.dropWhile Char.isWhitespace).reverse.dropWhile Char.isWhitespace).reverse⟩

/-- One entry of a parsed `reactions_json` array: `{emoji, count}`. -/
structure Reaction where
  emoji : Option String
  count : Nat
deriving DecidableEq

/-- One historical channel message, as consumed by `drawTelegramBubble` and
the reference matcher (exactly the fields the export code reads). -/
structure SourceMessage where
  text_content : Option String
  content_type : Option String
  forward_from : Option String
  reactions_json : Option String
  views_count : Nat
  posted_at : Option String
deriving DecidableEq

/-- The sanitized message text, `stripEmoji(msg.text_content).trim()`.
`stripEmoji` itself does `(str || '')` first, so a null text becomes `""`. -/
def cleanTextOf (stripE : String → String) (msg : SourceMessage) : String :=
  jsTrim (stripE (msg.text_content.getD ""))

/-- Wrapped text lines: `doc.splitTextToSize(cleanText, inner)` with `inner = width - pad * 2`
(`pad` = 3 mm = 6 units); only computed when `cleanText` is truthy,
otherwise `textLines` keeps its initial value `[]`. -/
def textLinesOf (split : ℤ → String → List String) (stripE : String → String)
    (width : ℤ) (msg : SourceMessage) : List String :=
  let c := cleanTextOf stripE msg
  if c = "" then [] else split (width - 12) c

/-- Reactions field: `try { if (msg.reactions_json) reactions = JSON.parse(...) } catch {}`:
a missing/null/empty field is falsy and skipped, a parse failure is caught,
and in both cases `reactions` keeps its initial value `[]`. -/
def reactionsOf (parse : String → Option (List Reaction)) (msg : SourceMessage) :
    List Reaction :=
  match msg.reactions_json with
  | none => []
  | some s => if s = "" then [] else (parse s).getD []

/-- Condition `msg.content_type && msg.content_type !== 'text'` — whether the
content-type badge line is measured and drawn. -/
def hasTypeLabel (msg : SourceMessage) : Bool :=
  match msg.content_type with
  | none => false
  | some t => if t = "" then false else if t = "text" then false else true

/-- Phase 1 of `drawTelegramBubble`: the measured height `h`, in 0.5 mm
units.  Summands in source order: top pad (3), channel name (5), optional
type badge (4), optional forward header (4), `min(lines, 8)` wrapped text
lines (3.5 each) plus an ellipsis line (3.5) when more than 8, optional
reactions line (4.5), footer (5), bottom pad (3). -/
def measureHeight (split : ℤ → String → List String) (stripE : String → String)
    (parse : String → Option (List Reaction)) (width : ℤ) (msg : SourceMessage) : ℤ :=
  let L := (textLinesOf split stripE width msg).length
  6 + 10
    + (if hasTypeLabel msg then 8 else 0)
    + (if jsTruthy msg.forward_from then 8 else 0)
    + (if cleanTextOf stripE msg = "" then 0
        else ((min L 8 : ℕ) : ℤ) * 7 + (if 8 < L then 7 else 0))
    + (if (reactionsOf parse msg).length = 0 then 0 else 9)
    + 10 + 6

/-- The kinds of `doc.text` calls inside the bubble's draw phase. -/
inductive BubbleEl where
  | name
  | typeLabel
  | forwarded
  | textLine (s : String)
  | ellipsis
  | reactionsLine
  | footer
deriving DecidableEq

/-- Phase 3 of `drawTelegramBubble`: the sequence of `doc.text` calls with
their baseline offsets relative to the bubble's top `y` (0.5 mm units),
obtained by replaying the cursor `cy` of the source line by line:
`cy = y + pad`; name at `cy + 3`, `cy += 5`; badge at `cy + 2.5`,
`cy += 4`; forward at `cy + 2.5`, `cy += 4`; each of the first
`min(lines, 8)` text lines at `cy + 3`, `cy += 3.5`; ellipsis at `cy + 3`,
`cy += 3.5`; reactions at `cy + 1 + 2.5`, `cy += 1 + 3.5`; footer at
`cy + 1 + 2.5`.  The second component is the footer baseline — the
lowest position drawn. -/
def drawEvents (split : ℤ → String → List String) (stripE : String → String)
    (parse : String → Option (List Reaction)) (width : ℤ) (msg : SourceMessage) :
    List (BubbleEl × ℤ) × ℤ :=
  let lines := textLinesOf split stripE width msg
  let L := lines.length
  let cy1 : ℤ := 6
  let e1 := (BubbleEl.name, cy1 + 6)
  let cy2 := cy1 + 10
  let es2 := if hasTypeLabel msg then [(BubbleEl.typeLabel, cy2 + 5)] else []
  let cy3 := if hasTypeLabel msg then cy2 + 8 else cy2
  let es3 := if jsTruthy msg.forward_from then [(BubbleEl.forwarded, cy3 + 5)] else []
  let cy4 := if jsTruthy msg.forward_from then cy3 + 8 else cy3
  let maxL := min L 8
  let esT := (List.range maxL).map
      (fun i => (BubbleEl.textLine (lines.getD i ""), cy4 + (i : ℤ) * 7 + 6))
  let cy5 := cy4 + (maxL : ℤ) * 7
  let es5 := if 8 < L then [(BubbleEl.ellipsis, cy5 + 6)] else []
  let cy6 := if 8 < L then cy5 + 7 else cy5
  let es6 := if (reactionsOf parse msg).length = 0 then []
      else [(BubbleEl.reactionsLine, cy6 + 2 + 5)]
  let cy7 := if (reactionsOf parse msg).length = 0 then cy6 else cy6 + 2 + 7
  (e1 :: es2 ++ es3 ++ esT ++ es5 ++ es6 ++ [(BubbleEl.footer, cy7 + 2 + 5)],
    cy7 + 2 + 5)

/-- JS `x.toFixed(1)` for a nonnegative rational: round half-up to one
decimal digit and print `intpart.digit`. -/
def toFixed1 (q : ℚ) : String :=
  let n := (⌊q * 10 + 1 / 2⌋).toNat
  s!"{n / 10}.{n % 10}"

/-- The footer's view-count string:
`msg.views_count >= 1000 ? (views_count / 1000).toFixed(1) + 'K views'
: (views_count || 0) + ' views'`. -/
def viewsString (views_count : ℕ) : String :=
  if 1000 ≤ views_count then toFixed1 ((views_count : ℚ) / 1000) ++ "K views"
  else toString views_count ++ " views"

/-- One planned post of a `DayPlan` (the fields the export code reads). -/
structure PlannedPost where
  time : Option String
  type : Option String
  content_brief : Option String
  topic : Option String
  cta : Option String
  ref : Option Nat
deriving DecidableEq

/-- One day of the generated 30-day plan. -/
structure DayPlan where
  day : Nat
  posts : List PlannedPost
deriving DecidableEq

/-- An entry of `reference_messages` supplied by the backend: a source
message carrying a `ref_index` that a post's explicit `ref` can point to. -/
structure RefMessage extends SourceMessage where
  ref_index : Nat
deriving DecidableEq

/-- The message-pool filter applied before matching:
`(feedResp.data.messages || []).filter((m) => m.text_content && m.text_content.trim())`. -/
def planMsgPool (fetched : List SourceMessage) : List SourceMessage :=
  fetched.filter (fun m => jsTruthy m.text_content && !(jsTrim (m.text_content.getD "") = ""))

/-- The `byType` map built by `msgList.forEach`: `byType[t]` is the ordered
list of messages whose `content_type || 'text'` equals `t`; the key is
absent (JS `undefined`) when no message has that type. -/
def byTypeLookup (msgList : List SourceMessage) (t : String) : Option (List SourceMessage) :=
  let l := msgList.filter (fun m => jsStrOr m.content_type "text" == t)
  if l = [] then none else some l

/-- The pool selected by `byType[t] || byType['text'] || msgList`. -/
def poolFor (msgList : List SourceMessage) (t : String) : List SourceMessage :=
  match byTypeLookup msgList t with
  | some l => l
  | none =>
    match byTypeLookup msgList "text" with
    | some l => l
    | none => msgList

/-- The explicit-override branch of `getRefMessage`:
`if (post.ref && referenceMessages) { const found =
referenceMessages.find((rm) => rm.ref_index === post.ref); if (found)
return found; }` — `post.ref` is falsy when absent or `0`. -/
def overrideResult (refs : Option (List RefMessage)) (post : PlannedPost) :
    Option SourceMessage :=
  match post.ref, refs with
  | some r, some rl =>
    if r = 0 then none
    else
      match rl.find? (fun rm => rm.ref_index == r) with
      | some found => some found.toSourceMessage
      | none => none
  | _, _ => none

/-- Model of `getRefMessage(post)`: the explicit override if it resolves, otherwise
round-robin over `byType[t] || byType['text'] || msgList` with the
per-content-type counter `typeCounters[t]` (counters are a map with
default 0, mirroring `if (!typeCounters[t]) typeCounters[t] = 0`); returns
the chosen message (or `none` on an empty pool) together with the updated
counters. -/
def getRefMessage (refs : Option (List RefMessage)) (msgList : List SourceMessage)
    (counters : String → Nat) (post : PlannedPost) :
    Option SourceMessage × (String → Nat) :=
  match overrideResult refs post with
  | some m => (some m, counters)
  | none =>
    let t := jsStrOr post.type "text"
    let pool := poolFor msgList t
    if h : pool = [] then (none, counters)
    else
      let c := counters t
      (some (pool.get ⟨c % pool.length, Nat.mod_lt _ (List.length_pos.mpr h)⟩),
        fun s => if s = t then c + 1 else counters s)

/-- The reference assignments produced by running `getRefMessage` over a
list of posts in order, threading the counters. -/
def assignPosts (refs : Option (List RefMessage)) (msgList : List SourceMessage) :
    List PlannedPost → (String → Nat) → List (Option SourceMessage) × (String → Nat)
  | [], c => ([], c)
  | p :: ps, c =>
    let r := getRefMessage refs msgList c p
    let rest := assignPosts refs msgList ps r.2
    (r.1 :: rest.1, rest.2)

/-- The reference assignments produced by the nested loop
`plan.daily_plan.forEach((day) => { ... day.posts.forEach((post) => {
... getRefMessage(post) ... }) })`, first day to last, first post to last
within a day. -/
def assignDays (refs : Option (List RefMessage)) (msgList : List SourceMessage) :
    List DayPlan → (String → Nat) → List (Option SourceMessage) × (String → Nat)
  | [], c => ([], c)
  | d :: ds, c =>
    let r := assignPosts refs msgList d.posts c
    let rest := assignDays refs msgList ds r.2
    (r.1 ++ rest.1, rest.2)

/-- One run of `exportPlanToPdf`'s matching: `byType` and `typeCounters`
are created inside the call (`const typeCounters = {}` — every counter
starts at 0) and the pre-filtered message list is used. -/
def exportPlanAssignments (plan : List DayPlan) (refs : Option (List RefMessage))
    (fetched : List SourceMessage) : List (Option SourceMessage) :=
  (assignDays refs (planMsgPool fetched) plan (fun _ => 0)).1

/-- The round-robin step restricted to one content type `t`, carrying only
the single counter `typeCounters[t]` (for the isolation proof). -/
def stepType (refs : Option (List RefMessage)) (msgList : List SourceMessage)
    (t : String) (c : Nat) (post : PlannedPost) : Option SourceMessage × Nat :=
  match overrideResult refs post with
  | some m => (some m, c)
  | none =>
    let pool := poolFor msgList t
    if h : pool = [] then (none, c)
    else
      (some (pool.get ⟨c % pool.length, Nat.mod_lt _ (List.length_pos.mpr h)⟩), c + 1)

/-- Folding `stepType` over a list of posts of one content type. -/
def assignTyped (refs : Option (List RefMessage)) (msgList : List SourceMessage)
    (t : String) : List PlannedPost → Nat → List (Option SourceMessage) × Nat
  | [], c => ([], c)
  | p :: ps, c =>
    let r := stepType refs msgList t c p
    let rest := assignTyped refs msgList t ps r.2
    (r.1 :: rest.1, rest.2)

/-- The subsequence of reference assignments received by the posts whose
content-type key (`post.type || 'text'`) is `t`, in traversal order, for
one compilation run started with zeroed counters. -/
def assignmentsForType (refs : Option (List RefMessage)) (msgList : List SourceMessage)
    (t : String) (posts : List PlannedPost) : List (Option SourceMessage) :=
  ((posts.zip (assignPosts refs msgList posts (fun _ => 0)).1).filter
      (fun pm => jsStrOr pm.1.type "text" == t)).map Prod.snd

/-- A4 page height: 297 mm = 594 units. -/
def pageHeight : ℤ := 594

/-- The bottom of the printable area used by `addPageIfNeeded`:
`doc.internal.pageSize.getHeight() - 15` (15 mm bottom margin). -/
def pageBottom : ℤ := pageHeight - 30

/-- The pagination cursor: current page number (1-based) and vertical
position `y` in 0.5 mm units. -/
structure PageState where
  page : Nat
  y : ℤ
deriving DecidableEq

/-- Model of `addPageIfNeeded(needed)`: `if (y + needed > pageHeight - 15) {
doc.addPage(); y = 20; }` (20 mm top start = 40 units). -/
def addPageIfNeeded (needed : ℤ) (s : PageState) : PageState :=
  if pageBottom < s.y + needed then { page := s.page + 1, y := 40 } else s

/-- The block kinds placed by the daily-schedule loop of `exportPlanToPdf`. -/
inductive BlockKind where
  | dayHeader
  | postInfo
  | cta
  | bubble
deriving DecidableEq

/-- One placed block: its kind, the page it is drawn on, the vertical
position of its top edge, and its drawn height (0.5 mm units). -/
structure Placed where
  kind : BlockKind
  page : Nat
  top : ℤ
  height : ℤ
deriving DecidableEq

/-- The trace state of the daily-schedule loop: the pagination cursor plus
the matcher's `typeCounters`. -/
structure TraceState where
  page : Nat
  y : ℤ
  counters : String → Nat

/-- Version of `addPageIfNeeded` acting on a `TraceState`. -/
def stepPage (needed : ℤ) (s : TraceState) : TraceState :=
  if pageBottom < s.y + needed then { page := s.page + 1, y := 40, counters := s.counters } else s

/-- The body of `posts.forEach((post) => ...)` in `exportPlanToPdf`:
`addPageIfNeeded(55)`; the post-info line (`y += 5`) and the wrapped
`content_brief || topic || ''` paragraph (`y += topicLines.length * 4 + 1`)
form the post-info block; an optional CTA line (`y += 4`); then
`getRefMessage(post)` and, when a reference was found, `y += 2`,
`addPageIfNeeded(35)`, the small label (`y += 4`) and the bubble of height
`drawTelegramBubble(...)` (`y += bubbleH + 3`); finally `y += 3`. -/
def drawPost (split : ℤ → String → List String) (stripE : String → String)
    (parse : String → Option (List Reaction)) (refs : Option (List RefMessage))
    (msgList : List SourceMessage) (channelW : ℤ) (post : PlannedPost) (s : TraceState) :
    List Placed × TraceState :=
  let s1 := stepPage 110 s
  let L := (split (channelW - 8) (jsStrOr post.content_brief (jsStrOr post.topic ""))).length
  let infoBlock : Placed := ⟨.postInfo, s1.page, s1.y, 10 + (L : ℤ) * 8 + 2⟩
  let y2 := s1.y + 10 + (L : ℤ) * 8 + 2
  let ctaBlocks := if jsTruthy post.cta then [(⟨.cta, s1.page, y2, 8⟩ : Placed)] else []
  let y3 := if jsTruthy post.cta then y2 + 8 else y2
  let r := getRefMessage refs msgList s1.counters post
  match r.1 with
  | none => ([infoBlock] ++ ctaBlocks, ⟨s1.page, y3 + 6, r.2⟩)
  | some msg =>
    let s5 := stepPage 70 ⟨s1.page, y3 + 4, r.2⟩
    let y6 := s5.y + 8
    let bh := measureHeight split stripE parse (channelW - 16) msg
    ([infoBlock] ++ ctaBlocks ++ [(⟨.bubble, s5.page, y6, bh⟩ : Placed)],
      ⟨s5.page, y6 + bh + 6 + 6, s5.counters⟩)

/-- Loop `posts.forEach` — posts of one day in order. -/
def drawPosts (split : ℤ → String → List String) (stripE : String → String)
    (parse : String → Option (List Reaction)) (refs : Option (List RefMessage))
    (msgList : List SourceMessage) (channelW : ℤ) :
    List PlannedPost → TraceState → List Placed × TraceState
  | [], s => ([], s)
  | p :: ps, s =>
    let r := drawPost split stripE parse refs msgList channelW p s
    let rest := drawPosts split stripE parse refs msgList channelW ps r.2
    (r.1 ++ rest.1, rest.2)

/-- The body of `plan.daily_plan.forEach((day) => ...)`:
`addPageIfNeeded(15)`, the day-header band (a 7 mm filled rect with the
day title, `y += 9`), the day's posts, then `y += 2`. -/
def drawDay (split : ℤ → String → List String) (stripE : String → String)
    (parse : String → Option (List Reaction)) (refs : Option (List RefMessage))
    (msgList : List SourceMessage) (channelW : ℤ) (day : DayPlan) (s : TraceState) :
    List Placed × TraceState :=
  let s1 := stepPage 30 s
  let hdr : Placed := ⟨.dayHeader, s1.page, s1.y, 14⟩
  let r := drawPosts split stripE parse refs msgList channelW day.posts
      ⟨s1.page, s1.y + 18, s1.counters⟩
  (hdr :: r.1, ⟨r.2.page, r.2.y + 4, r.2.counters⟩)

/-- Loop `plan.daily_plan.forEach` — all days in order. -/
def drawDays (split : ℤ → String → List String) (stripE : String → String)
    (parse : String → Option (List Reaction)) (refs : Option (List RefMessage))
    (msgList : List SourceMessage) (channelW : ℤ) :
    List DayPlan → TraceState → List Placed × TraceState
  | [], s => ([], s)
  | d :: ds, s =>
    let r := drawDay split stripE parse refs msgList channelW d s
    let rest := drawDays split stripE parse refs msgList channelW ds r.2
    (r.1 ++ rest.1, rest.2)

/-- The daily-schedule section of `exportPlanToPdf`, entered at vertical
position `y₀` on page 1 with zeroed `typeCounters`: `addPageIfNeeded(20)`,
the section heading (`y += 8`), then all days.  `channelW` is
`contentWidth = pageWidth - 2 * margin` (180 mm = 360 units) kept abstract
so the wrap widths `contentWidth - 4` and `contentWidth - 8` stay visible. -/
def dailySection (split : ℤ → String → List String) (stripE : String → String)
    (parse : String → Option (List Reaction)) (refs : Option (List RefMessage))
    (msgList : List SourceMessage) (channelW : ℤ) (days : List DayPlan) (y₀ : ℤ) :
    List Placed × TraceState :=
  let s0 := stepPage 40 ⟨1, y₀, fun _ => 0⟩
  drawDays split stripE parse refs msgList channelW days ⟨s0.page, s0.y + 16, s0.counters⟩

/-- The vertical position at which the daily-schedule section starts for a
plan without a strategy-overview paragraph and without a weekly-themes
table: title block `y = 20 → 28`, channel line `→ 32`, date line `→ 42`,
separator `→ 50` (doubled: 100). -/
def preambleY : ℤ := 100

/-- Footer text `Page {i}/{total}` stamped on page `i` of a finished
document of `total` pages. -/
def mkFooter (i total : Nat) : String :=
  s!"Page {i}/{total}  —  Spy Affiliation Trading"

/-- The footer-stamping loop shared verbatim by `exportPlanToPdf` and
`exportPersonaToPdf`: after all blocks are placed,
`totalPages = doc.internal.getNumberOfPages()` and for each
`i = 1 .. totalPages`, `doc.setPage(i)` and the footer text is drawn —
the list of (page, footer text) pairs. -/
def stampFooters (total : Nat) : List (Nat × String) :=
  (List.range total).map (fun i => (i + 1, mkFooter (i + 1) total))

/-- Projection selecting the wrapped-text-line draw calls of a bubble. -/
def isTextLine (e : BubbleEl × ℤ) : Option String :=
  match e.1 with
  | BubbleEl.textLine s => some s
  | _ => none

/-- Projection selecting the ellipsis draw calls of a bubble. -/
def isEllipsisE (e : BubbleEl × ℤ) : Option Unit :=
  match e.1 with
  | BubbleEl.ellipsis => some ()
  | _ => none

/-- A concrete, structurally recursive instance of `split`: break a string
at newline characters (jsPDF's `splitTextToSize` starts by honouring
explicit line breaks, so any list of short newline-separated lines wraps
to exactly those lines). -/
def splitLinesAux : List Char → List Char → List String
  | [], acc => [⟨acc.reverse⟩]
  | c :: cs, acc =>
    if c = '\x0A' then ⟨acc.reverse⟩ :: splitLinesAux cs []
    else splitLinesAux cs (c :: acc)

/-- Splitter `splitLinesAux` packaged as a `String → List String` function. -/
def splitLines (s : String) : List String := splitLinesAux s.data []

/-- Fixture text: `n` newline-separated one-character lines. -/
def aLines (n : Nat) : String := ⟨List.intercalate ['\x0A'] (List.replicate n ['a'])⟩

/-- A message whose sanitized text wraps to 9 lines under `splitLines`. -/
def msgNine : SourceMessage := ⟨some (aLines 9), none, none, none, 0, none⟩

/-- The guarantee `addPageIfNeeded` gives each block kind: every block
starts at or below the top cursor position (40 = 20 mm), a day header is
placed with its checked 15 mm (30) of clearance — more than its drawn
7 mm band — and a post-info paragraph and a reference bubble are placed
with the fixed clearances actually checked by the source (55 mm and
35 mm − 2 mm of label offset), not with their own heights. -/
def GoodBlock (b : Placed) : Prop :=
  40 ≤ b.top ∧
  (b.kind = BlockKind.dayHeader → b.top + 30 ≤ pageBottom ∧ b.height = 14) ∧
  (b.kind = BlockKind.postInfo → b.top + 110 ≤ pageBottom) ∧
  (b.kind = BlockKind.bubble → b.top + 62 ≤ pageBottom)

/-- Invariant of a trace segment: every emitted block is `GoodBlock`, its
page lies between the entry page and the exit page, and the cursor stays
at or below the top margin. -/
def GoodRun (s : TraceState) (out : List Placed × TraceState) : Prop :=
  (∀ b ∈ out.1, GoodBlock b ∧ s.page ≤ b.page ∧ b.page ≤ out.2.page) ∧
  40 ≤ out.2.y ∧ s.page ≤ out.2.page

/-- Concrete `splitTextToSize` instance for the counterexample: honour
newlines. -/
def cexSplit : ℤ → String → List String := fun _ s => splitLines s

/-- Concrete `JSON.parse` instance: the fixture string `"RJ"` parses to a
one-reaction list; everything else fails. -/
def cexParse : String → Option (List Reaction) :=
  fun s => if s = "RJ" then some [⟨some "+", 3⟩] else none

/-- A tall reference message: photo badge, forward header, 9 wrapped
lines (8 + ellipsis) and one reaction — bubble height 60 mm (120). -/
def cexMsg : SourceMessage :=
  ⟨some (aLines 9), some "photo", some "trader", some "RJ", 1200, some "10:00"⟩

/-- A photo post whose brief wraps to 40 lines, pushing the cursor deep
into the page before the bubble's 35 mm check. -/
def cexPost : PlannedPost := ⟨some "09:00", some "photo", some (aLines 40), none, none, none⟩

/-- A one-day plan holding just `cexPost`. -/
def cexDay : DayPlan := ⟨1, [cexPost]⟩

example : measureHeight (fun _ s => [s]) id (fun _ => none) 200
    ⟨some "hello", none, none, none, 5, none⟩ = 39 := by decide

example : ((drawEvents (fun _ s => [s]) id (fun _ => none) 200
    ⟨some "hello", none, none, none, 5, none⟩).1).length = 3 := by decide

example : (drawEvents (fun _ s => [s]) id (fun _ => none) 200
    ⟨some "hello", none, none, none, 5, none⟩).2 = 30 := by decide

example :
    (assignPosts none [⟨some "a", none, none, none, 1, none⟩, ⟨some "b", none, none, none, 2, none⟩]
      [⟨none, none, none, none, none, none⟩, ⟨none, none, none, none, none, none⟩,
        ⟨none, none, none, none, none, none⟩] (fun _ => 0)).1 =
    [some ⟨some "a", none, none, none, 1, none⟩, some ⟨some "b", none, none, none, 2, none⟩,
      some ⟨some "a", none, none, none, 1, none⟩] := by decide

example : stampFooters 2 =
    [(1, "Page 1/2  —  Spy Affiliation Trading"), (2, "Page 2/2  —  Spy Affiliation Trading")] := by
  decide

lemma toFixed1_eval (v : ℕ) (n : ℕ) (h : ⌊((v : ℚ) / 1000) * 10 + 1 / 2⌋ = (n : ℤ)) :
    toFixed1 ((v : ℚ) / 1000) = s!"{n / 10}.{n % 10}" := by
  simp only [toFixed1, h, Int.toNat_natCast]

/-- C3 counterexample: the source has no 'M' tier at all — a view count of
1,000,000 is still formatted through the 'K' branch as `1000.0K`, not as
`1.0M`. -/
theorem views_formatting_cex :
    viewsString 1000000 = "1000.0K views" ∧ viewsString 1000000 ≠ "1.0M views" := by
  have h : toFixed1 (((1000000 : ℕ) : ℚ) / 1000) = "1000.0" := by
    rw [toFixed1_eval 1000000 10000 (by rw [Int.floor_eq_iff]; norm_num)]
    decide
  have h2 : viewsString 1000000 = "1000.0K views" := by
    simp only [viewsString]
    rw [if_pos (by norm_num), h]
    decide
  exact ⟨h2, by rw [h2]; decide⟩

/-- C3 amended: a view count of at least 1,000 renders as the count
divided by 1,000 to one decimal place followed by `K`; any smaller count
renders as the literal integer; there is no `M` tier, so 1,000,000 also
renders through the `K` branch: `999 → "999"`, `1000 → "1.0K"`,
`999999 → "1000.0K"`, `1000000 → "1000.0K"`. -/
theorem views_formatting_boundaries :
    viewsString 999 = "999 views" ∧ viewsString 1000 = "1.0K views" ∧
      viewsString 999999 = "1000.0K views" ∧ viewsString 1000000 = "1000.0K views" := by
  refine ⟨by simp only [viewsString]; rw [if_neg (by norm_num)]; decide, ?_, ?_, ?_⟩
  · have h : toFixed1 (((1000 : ℕ) : ℚ) / 1000) = "1.0" := by
      rw [toFixed1_eval 1000 10 (by rw [Int.floor_eq_iff]; norm_num)]
      decide
    simp only [viewsString]
    rw [if_pos (by norm_num), h]
    decide
  · have h : toFixed1 (((999999 : ℕ) : ℚ) / 1000) = "1000.0" := by
      rw [toFixed1_eval 999999 10000 (by rw [Int.floor_eq_iff]; norm_num)]
      decide
    simp only [viewsString]
    rw [if_pos (by norm_num), h]
    decide
  · have h : toFixed1 (((1000000 : ℕ) : ℚ) / 1000) = "1000.0" := by
      rw [toFixed1_eval 1000000 10000 (by rw [Int.floor_eq_iff]; norm_num)]
      decide
    simp only [viewsString]
    rw [if_pos (by norm_num), h]
    decide

lemma mem_ite_singleton {α : Type _} {c : Prop} [inst : Decidable c] {x e : α}
    (h : e ∈ if c then [x] else ([] : List α)) : c ∧ e = x := by
  by_cases hc : c
  · rw [if_pos hc] at h
    exact ⟨hc, List.mem_singleton.mp h⟩
  · rw [if_neg hc] at h
    exact absurd h (List.not_mem_nil e)

lemma mem_ite_singleton_flip {α : Type _} {c : Prop} [inst : Decidable c] {x e : α}
    (h : e ∈ if c then ([] : List α) else [x]) : ¬c ∧ e = x := by
  by_cases hc : c
  · rw [if_pos hc] at h
    exact absurd h (List.not_mem_nil e)
  · rw [if_neg hc] at h
    exact ⟨hc, List.mem_singleton.mp h⟩

/-- C1: the height returned by `drawTelegramBubble`'s measure phase
exactly accounts for the drawn content: replaying the draw phase, the
footer — the lowest drawn element — sits exactly 4.5 mm (9 units) above
the bottom of the measured box, and every `doc.text` call of the draw
phase has its baseline strictly below the bubble's top and at least
4.5 mm above `y + h`, so the whole bubble lies inside the rectangle of
height `h` at `y` and a caller advancing its cursor by the return value
never overlaps the bubble. -/
theorem bubble_measure_draw_equality :
    ∀ (split : ℤ → String → List String) (stripE : String → String)
      (parse : String → Option (List Reaction)) (width : ℤ) (msg : SourceMessage),
      (drawEvents split stripE parse width msg).2 + 9 =
          measureHeight split stripE parse width msg ∧
      ∀ e ∈ (drawEvents split stripE parse width msg).1,
        0 < e.2 ∧ e.2 + 9 ≤ measureHeight split stripE parse width msg := by
  intro split stripE parse width msg
  constructor
  · simp only [drawEvents, measureHeight, textLinesOf]
    split_ifs <;> simp_all <;> omega
  · intro e he
    simp only [drawEvents, textLinesOf, List.mem_cons, List.mem_append,
      List.mem_singleton, List.mem_nil_iff, or_false, or_assoc] at he
    simp only [measureHeight, textLinesOf]
    rcases he with rfl | he | he | he | he | he | rfl
    · constructor <;>
        (dsimp only; (try split_ifs) <;> (try simp only [List.length_nil] at *) <;> omega)
    · obtain ⟨hc, rfl⟩ := mem_ite_singleton he
      constructor <;>
        (dsimp only; (try split_ifs) <;> (try simp only [List.length_nil] at *) <;> omega)
    · obtain ⟨hc, rfl⟩ := mem_ite_singleton he
      constructor <;>
        (dsimp only; (try split_ifs) <;> (try simp only [List.length_nil] at *) <;> omega)
    · obtain ⟨i, hi, rfl⟩ := List.mem_map.mp he
      rw [List.mem_range] at hi
      constructor <;>
        (dsimp only; split_ifs at hi ⊢ <;> (try simp only [List.length_nil] at *) <;> omega)
    · obtain ⟨hc, rfl⟩ := mem_ite_singleton he
      constructor <;>
        (dsimp only; (try split_ifs) <;> (try simp only [List.length_nil] at *) <;> omega)
    · obtain ⟨hc, rfl⟩ := mem_ite_singleton_flip he
      constructor <;>
        (dsimp only; (try split_ifs) <;> (try simp only [List.length_nil] at *) <;> omega)
    · constructor <;>
        (dsimp only; (try split_ifs) <;> (try simp only [List.length_nil] at *) <;> omega)

lemma range_map_getD_take (l : List String) (n : Nat) (h : n ≤ l.length) :
    (List.range n).map (fun i => l.getD i "") = l.take n := by
  apply List.ext_getElem
  · simp [Nat.min_eq_left h]
  · intro i h1 h2
    simp only [List.length_map, List.length_range] at h1
    simp only [List.getElem_map, List.getElem_range, List.getElem_take]
    rw [List.getD_eq_getElem]

lemma filterMap_ite_sing {α β : Type _} {c : Prop} [inst : Decidable c] {x : α}
    {g : α → Option β} (hx : g x = none) :
    List.filterMap g (if c then [x] else []) = [] := by
  split_ifs <;> simp [hx]

lemma filterMap_ite_sing_flip {α β : Type _} {c : Prop} [inst : Decidable c] {x : α}
    {g : α → Option β} (hx : g x = none) :
    List.filterMap g (if c then [] else [x]) = [] := by
  split_ifs <;> simp [hx]

lemma filterMap_map_none {α β γ : Type _} {g : β → Option γ} {f : α → β}
    (hf : ∀ a, g (f a) = none) (l : List α) : List.filterMap g (l.map f) = [] := by
  induction l with
  | nil => rfl
  | cons a l ih => simp [List.filterMap_cons, hf a, ih]

lemma filterMap_isTextLine_map (lines : List String) {c : ℤ} (n : ℕ)
    (h : n ≤ lines.length) :
    List.filterMap isTextLine ((List.range n).map
      (fun i => (BubbleEl.textLine (lines.getD i ""), c + (i : ℤ) * 7 + 6))) =
      lines.take n := by
  rw [List.filterMap_map]
  have h2 : (isTextLine ∘ fun i : ℕ =>
      (BubbleEl.textLine (lines.getD i ""), c + (i : ℤ) * 7 + 6)) =
      fun i : ℕ => some (lines.getD i "") := by
    funext i
    rfl
  rw [h2]
  have h3 : ∀ l : List ℕ, (l.filterMap fun i : ℕ => some (lines.getD i "")) =
      l.map fun i : ℕ => lines.getD i "" := by
    intro l
    induction l with
    | nil => rfl
    | cons x xs ih => simp only [List.filterMap_cons, List.map_cons, ih]
  rw [h3]
  exact range_map_getD_take lines n h

/-- C7: when the sanitized text wraps to more than 8 lines, the draw phase
renders exactly the first 8 wrapped lines (in order) and exactly one
ellipsis marker, and the measure phase charges exactly `8 * 3.5` (8 lines)
plus one extra `3.5` (the ellipsis line) for the text — in 0.5 mm units,
`8 * 7 + 7`.  The message is an immutable input of the builder, so the cap
affects only the rendering, not the underlying data. -/
theorem bubble_truncation :
    ∀ (split : ℤ → String → List String) (stripE : String → String)
      (parse : String → Option (List Reaction)) (width : ℤ) (msg : SourceMessage),
      8 < (textLinesOf split stripE width msg).length →
      (drawEvents split stripE parse width msg).1.filterMap isTextLine =
          (textLinesOf split stripE width msg).take 8 ∧
      (drawEvents split stripE parse width msg).1.filterMap isEllipsisE = [()] ∧
      measureHeight split stripE parse width msg =
        6 + 10 + (if hasTypeLabel msg then 8 else 0)
          + (if jsTruthy msg.forward_from then 8 else 0) + (8 * 7 + 7)
          + (if (reactionsOf parse msg).length = 0 then 0 else 9) + 10 + 6 := by
  intro split stripE parse width msg h
  have hmin : min (textLinesOf split stripE width msg).length 8 = 8 := by omega
  have hne : cleanTextOf stripE msg ≠ "" := by
    intro hc
    rw [textLinesOf, hc] at h
    simp at h
  refine ⟨?_, ?_, ?_⟩
  · simp only [drawEvents, hmin, if_pos h]
    simp only [List.filterMap_cons, List.filterMap_append, isTextLine,
      filterMap_ite_sing, filterMap_ite_sing_flip,
      filterMap_isTextLine_map (textLinesOf split stripE width msg) 8 (by omega),
      List.filterMap_nil, List.nil_append, List.append_nil]
  · simp only [drawEvents, hmin, if_pos h]
    simp only [List.filterMap_cons, List.filterMap_append, isEllipsisE,
      filterMap_ite_sing, filterMap_ite_sing_flip,
      List.filterMap_nil, List.nil_append, List.append_nil]
    rw [filterMap_map_none (fun a => rfl)]
    rfl
  · simp only [measureHeight, hmin, if_pos h, if_neg hne]
    norm_num

example : splitLines (aLines 9) = List.replicate 9 "a" := by decide

/-- Witness for C1 at a concrete bubble: the channel-name draw call. -/
theorem bubble_measure_draw_equality_witness :
    0 < ((BubbleEl.name, (6 : ℤ) + 6) : BubbleEl × ℤ).2 ∧
      ((BubbleEl.name, (6 : ℤ) + 6) : BubbleEl × ℤ).2 + 9 ≤
        measureHeight (fun _ s => [s]) id (fun _ => none) 200
          ⟨some "hello", none, none, none, 5, none⟩ :=
  (bubble_measure_draw_equality (fun _ s => [s]) id (fun _ => none) 200
      ⟨some "hello", none, none, none, 5, none⟩).2 (BubbleEl.name, 6 + 6) (by decide)

/-- Witness for C7 at a concrete 9-line message. -/
theorem bubble_truncation_witness :
    (drawEvents (fun _ s => splitLines s) id (fun _ => none) 200 msgNine).1.filterMap
        isTextLine =
      (textLinesOf (fun _ s => splitLines s) id 200 msgNine).take 8 ∧
    (drawEvents (fun _ s => splitLines s) id (fun _ => none) 200 msgNine).1.filterMap
        isEllipsisE = [()] ∧
    measureHeight (fun _ s => splitLines s) id (fun _ => none) 200 msgNine =
      6 + 10 + (if hasTypeLabel msgNine then 8 else 0)
        + (if jsTruthy msgNine.forward_from then 8 else 0) + (8 * 7 + 7)
        + (if (reactionsOf (fun _ => none) msgNine).length = 0 then 0 else 9) + 10 + 6 :=
  bubble_truncation (fun _ s => splitLines s) id (fun _ => none) 200 msgNine (by decide)

/-- C10: a missing, null, or unparseable `reactions_json` yields an empty
reaction list (the `catch {}` swallows the parse failure — in the model,
`reactionsOf` is total), no reactions line is measured or drawn, and the
bubble's measured height equals that of the same message carrying a
successfully parsed empty reaction array. -/
theorem reactions_parse_tolerance :
    ∀ (split : ℤ → String → List String) (stripE : String → String)
      (parse : String → Option (List Reaction)) (width : ℤ) (msg : SourceMessage)
      (s : String),
      (msg.reactions_json = none ∨ msg.reactions_json = some s ∧ (s = "" ∨ parse s = none)) →
      reactionsOf parse msg = [] ∧
      (∀ e ∈ (drawEvents split stripE parse width msg).1, e.1 ≠ BubbleEl.reactionsLine) ∧
      measureHeight split stripE parse width msg =
        measureHeight split stripE (fun _ => some []) width
          { msg with reactions_json := some "[]" } := by
  intro split stripE parse width msg s h
  have hr : reactionsOf parse msg = [] := by
    rcases h with h | ⟨h1, h2 | h2⟩ <;> simp_all [reactionsOf]
  refine ⟨hr, ?_, ?_⟩
  · intro e he
    simp only [drawEvents, List.mem_cons, List.mem_append, List.mem_singleton,
      List.mem_nil_iff, or_false, or_assoc, hr] at he
    rcases he with rfl | he | he | he | he | he | rfl
    · simp
    · obtain ⟨hc, rfl⟩ := mem_ite_singleton he
      simp
    · obtain ⟨hc, rfl⟩ := mem_ite_singleton he
      simp
    · obtain ⟨i, hi, rfl⟩ := List.mem_map.mp he
      simp
    · obtain ⟨hc, rfl⟩ := mem_ite_singleton he
      simp
    · obtain ⟨hc, rfl⟩ := mem_ite_singleton_flip he
      simp at hc
    · simp
  · have hr2 : reactionsOf (fun _ => some [])
        { msg with reactions_json := some "[]" } = [] := rfl
    simp only [measureHeight, hr, hr2]
    rfl

/-- Witness for C10 at a concrete message whose `reactions_json` is not
valid JSON (the parse function rejects it). -/
theorem reactions_parse_tolerance_witness :
    reactionsOf (fun _ => none) ⟨some "hi", none, none, some "not json", 0, none⟩ = [] ∧
      measureHeight (fun _ s => [s]) id (fun _ => none) 200
          ⟨some "hi", none, none, some "not json", 0, none⟩ =
        measureHeight (fun _ s => [s]) id (fun _ => some []) 200
          { (⟨some "hi", none, none, some "not json", 0, none⟩ : SourceMessage) with
            reactions_json := some "[]" } :=
  ⟨(reactions_parse_tolerance (fun _ s => [s]) id (fun _ => none) 200
      ⟨some "hi", none, none, some "not json", 0, none⟩ "not json"
      (Or.inr ⟨rfl, Or.inr rfl⟩)).1,
    (reactions_parse_tolerance (fun _ s => [s]) id (fun _ => none) 200
      ⟨some "hi", none, none, some "not json", 0, none⟩ "not json"
      (Or.inr ⟨rfl, Or.inr rfl⟩)).2.2⟩

lemma assignPosts_append (refs : Option (List RefMessage)) (msgs : List SourceMessage)
    (l1 l2 : List PlannedPost) :
    ∀ c, assignPosts refs msgs (l1 ++ l2) c =
      ((assignPosts refs msgs l1 c).1 ++
          (assignPosts refs msgs l2 (assignPosts refs msgs l1 c).2).1,
        (assignPosts refs msgs l2 (assignPosts refs msgs l1 c).2).2) := by
  induction l1 with
  | nil => intro c; simp [assignPosts]
  | cons p ps ih => intro c; simp only [List.cons_append, assignPosts, List.append_eq, ih]

lemma assignDays_flatten (refs : Option (List RefMessage)) (msgs : List SourceMessage)
    (plan : List DayPlan) :
    ∀ c, assignDays refs msgs plan c =
      assignPosts refs msgs (plan.flatMap DayPlan.posts) c := by
  induction plan with
  | nil => intro c; rfl
  | cons d ds ih =>
    intro c
    simp only [List.flatMap_cons, assignDays, ih, assignPosts_append]

/-- C2: the export's reference assignment is a pure function of the plan,
the backend reference list and the fetched pool — the `byType` index and
the `typeCounters` are created inside `exportPlanToPdf` and start at zero,
so two runs on the same inputs agree — and it traverses the plan first day
to last, first post to last within a day (the nested `forEach` loops equal
one pass over the flattened post list with zeroed counters). -/
theorem plan_assignment_deterministic :
    ∀ (plan : List DayPlan) (refs : Option (List RefMessage))
      (fetched : List SourceMessage),
      exportPlanAssignments plan refs fetched = exportPlanAssignments plan refs fetched ∧
      exportPlanAssignments plan refs fetched =
        (assignPosts refs (planMsgPool fetched) (plan.flatMap DayPlan.posts)
            (fun _ => 0)).1 := by
  intro plan refs fetched
  exact ⟨rfl, by rw [exportPlanAssignments, assignDays_flatten]⟩

lemma assignPosts_uniform (refs : Option (List RefMessage)) (msgs : List SourceMessage)
    (t : String) :
    ∀ (posts : List PlannedPost) (c : String → ℕ),
      (∀ p ∈ posts, jsStrOr p.type "text" = t ∧ overrideResult refs p = none) →
      (hp : poolFor msgs t ≠ []) →
      (assignPosts refs msgs posts c).1 =
        (List.range posts.length).map
          (fun i => (poolFor msgs t)[(c t + i) % (poolFor msgs t).length]?) := by
  intro posts
  induction posts with
  | nil => intro c h hp; rfl
  | cons p ps ih =>
    intro c h hp
    obtain ⟨⟨ht, ho⟩, hps⟩ := List.forall_mem_cons.mp h
    subst ht
    simp only [assignPosts, getRefMessage, ho, dif_neg hp]
    rw [ih _ hps hp]
    have htt : (if jsStrOr p.type "text" = jsStrOr p.type "text"
        then c (jsStrOr p.type "text") + 1 else c (jsStrOr p.type "text")) =
        c (jsStrOr p.type "text") + 1 := if_pos rfl
    rw [htt]
    rw [List.length_cons, List.range_succ_eq_map, List.map_cons, List.map_map]
    simp only [List.cons.injEq]
    constructor
    · rw [Nat.add_zero, List.get_eq_getElem,
        List.getElem?_eq_getElem (Nat.mod_lt _ (List.length_pos.mpr hp))]
    · apply List.map_congr_left
      intro i hi
      simp only [Function.comp]
      have hidx : c (jsStrOr p.type "text") + 1 + i = c (jsStrOr p.type "text") + i.succ := by
        omega
      rw [hidx]

/-- C5: for posts of one content type with no explicit override, the
matcher serves `pool[counter % pool.length]` with a per-type counter that
increments by one per post, so assignments are periodic with period equal
to the selected pool's length: the i-th and (i+N)-th such posts receive
the same source message. -/
theorem round_robin_wraparound :
    ∀ (refs : Option (List RefMessage)) (msgs : List SourceMessage) (t : String)
      (posts : List PlannedPost) (i : ℕ),
      (∀ p ∈ posts, jsStrOr p.type "text" = t ∧ overrideResult refs p = none) →
      poolFor msgs t ≠ [] →
      i + (poolFor msgs t).length < posts.length →
      ((assignPosts refs msgs posts (fun _ => 0)).1)[i]? =
        ((assignPosts refs msgs posts (fun _ => 0)).1)[i + (poolFor msgs t).length]? := by
  intro refs msgs t posts i h hp hlen
  rw [assignPosts_uniform refs msgs t posts (fun _ => 0) h hp]
  have h1 : i < posts.length := by omega
  simp only [List.getElem?_map, List.getElem?_range h1, List.getElem?_range hlen,
    Option.map_some', Option.some.injEq, Nat.zero_add, Nat.add_mod_right]

/-- Witness for C5: three text posts over a two-message pool; post 0 and
post 2 receive the same message. -/
theorem round_robin_wraparound_witness :
    ((assignPosts none [⟨some "alpha", none, none, none, 1, none⟩,
        ⟨some "beta", none, none, none, 2, none⟩]
        [⟨none, none, none, none, none, none⟩, ⟨none, none, none, none, none, none⟩,
          ⟨none, none, none, none, none, none⟩] (fun _ => 0)).1)[0]? =
      ((assignPosts none [⟨some "alpha", none, none, none, 1, none⟩,
          ⟨some "beta", none, none, none, 2, none⟩]
          [⟨none, none, none, none, none, none⟩, ⟨none, none, none, none, none, none⟩,
            ⟨none, none, none, none, none, none⟩] (fun _ => 0)).1)[0 +
        (poolFor [⟨some "alpha", none, none, none, 1, none⟩,
          ⟨some "beta", none, none, none, 2, none⟩] "text").length]? :=
  round_robin_wraparound none
    [⟨some "alpha", none, none, none, 1, none⟩, ⟨some "beta", none, none, none, 2, none⟩]
    "text"
    [⟨none, none, none, none, none, none⟩, ⟨none, none, none, none, none, none⟩,
      ⟨none, none, none, none, none, none⟩] 0 (by decide) (by decide) (by decide)

lemma getRefMessage_counter_other (refs : Option (List RefMessage))
    (msgs : List SourceMessage) (c : String → ℕ) (post : PlannedPost) (t : String)
    (h : jsStrOr post.type "text" ≠ t) :
    (getRefMessage refs msgs c post).2 t = c t := by
  rw [getRefMessage]
  rcases hov : overrideResult refs post with _ | m
  · dsimp only
    split_ifs
    · rfl
    · exact if_neg (fun ht => h ht.symm)
  · rfl

lemma getRefMessage_same_type (refs : Option (List RefMessage))
    (msgs : List SourceMessage) (c : String → ℕ) (post : PlannedPost) :
    (getRefMessage refs msgs c post).1 =
      (stepType refs msgs (jsStrOr post.type "text") (c (jsStrOr post.type "text")) post).1 ∧
    (getRefMessage refs msgs c post).2 (jsStrOr post.type "text") =
      (stepType refs msgs (jsStrOr post.type "text") (c (jsStrOr post.type "text")) post).2 := by
  rw [getRefMessage, stepType]
  rcases hov : overrideResult refs post with _ | m
  · dsimp only
    split_ifs
    · exact ⟨rfl, rfl⟩
    · exact ⟨rfl, if_pos rfl⟩
  · exact ⟨rfl, rfl⟩

lemma assignPosts_project (refs : Option (List RefMessage)) (msgs : List SourceMessage)
    (t : String) :
    ∀ (posts : List PlannedPost) (c : String → ℕ),
      ((posts.zip (assignPosts refs msgs posts c).1).filter
          (fun pm => jsStrOr pm.1.type "text" == t)).map Prod.snd =
        (assignTyped refs msgs t
          (posts.filter (fun p => jsStrOr p.type "text" == t)) (c t)).1 ∧
      (assignPosts refs msgs posts c).2 t =
        (assignTyped refs msgs t
          (posts.filter (fun p => jsStrOr p.type "text" == t)) (c t)).2 := by
  intro posts
  induction posts with
  | nil => intro c; exact ⟨rfl, rfl⟩
  | cons p ps ih =>
    intro c
    by_cases hpt : jsStrOr p.type "text" = t
    · have hkey := getRefMessage_same_type refs msgs c p
      rw [hpt] at hkey
      have hfz : ∀ (r : Option SourceMessage) (l : List (PlannedPost × Option SourceMessage)),
          ((p, r) :: l).filter (fun pm => jsStrOr pm.1.type "text" == t) =
            (p, r) :: l.filter (fun pm => jsStrOr pm.1.type "text" == t) := by
        intro r l
        apply List.filter_cons_of_pos
        simp [hpt]
      have hfp : (p :: ps).filter (fun q => jsStrOr q.type "text" == t) =
          p :: ps.filter (fun q => jsStrOr q.type "text" == t) :=
        List.filter_cons_of_pos (by simp [hpt])
      simp only [assignPosts, List.zip_cons_cons, hfz, hfp, assignTyped, List.map_cons]
      refine ⟨?_, ?_⟩
      · rw [hkey.1, (ih (getRefMessage refs msgs c p).2).1, hkey.2]
      · rw [(ih (getRefMessage refs msgs c p).2).2, hkey.2]
    · have hc2 := getRefMessage_counter_other refs msgs c p t hpt
      have hfz : ∀ (r : Option SourceMessage) (l : List (PlannedPost × Option SourceMessage)),
          ((p, r) :: l).filter (fun pm => jsStrOr pm.1.type "text" == t) =
            l.filter (fun pm => jsStrOr pm.1.type "text" == t) := by
        intro r l
        apply List.filter_cons_of_neg
        simp [hpt]
      have hfp : (p :: ps).filter (fun q => jsStrOr q.type "text" == t) =
          ps.filter (fun q => jsStrOr q.type "text" == t) :=
        List.filter_cons_of_neg (by simp [hpt])
      simp only [assignPosts, List.zip_cons_cons, hfz, hfp]
      refine ⟨?_, ?_⟩
      · rw [(ih (getRefMessage refs msgs c p).2).1, hc2]
      · rw [(ih (getRefMessage refs msgs c p).2).2, hc2]

/-- C9: the reference assignments received by the posts of one content
type depend only on those posts and the pool: the round-robin counter is
keyed by the post's own `post.type || 'text'` even when the pool falls
back to the `text` partition or the full list, so inserting, removing or
reordering posts of other types leaves the subsequence unchanged. -/
theorem type_isolation :
    ∀ (refs : Option (List RefMessage)) (msgs : List SourceMessage) (t : String)
      (posts1 posts2 : List PlannedPost),
      posts1.filter (fun p => jsStrOr p.type "text" == t) =
        posts2.filter (fun p => jsStrOr p.type "text" == t) →
      assignmentsForType refs msgs t posts1 = assignmentsForType refs msgs t posts2 := by
  intro refs msgs t posts1 posts2 h
  rw [assignmentsForType, assignmentsForType,
    (assignPosts_project refs msgs t posts1 (fun _ => 0)).1,
    (assignPosts_project refs msgs t posts2 (fun _ => 0)).1, h]

/-- Witness for C9: adding a photo post (and moving it about) does not
change the text posts' assignments. -/
theorem type_isolation_witness :
    assignmentsForType none [⟨some "alpha", none, none, none, 1, none⟩] "text"
        [⟨none, none, none, none, none, none⟩,
          ⟨none, some "photo", none, none, none, none⟩] =
      assignmentsForType none [⟨some "alpha", none, none, none, 1, none⟩] "text"
        [⟨some "18:00", some "photo", none, none, none, none⟩,
          ⟨none, none, none, none, none, none⟩] :=
  type_isolation none [⟨some "alpha", none, none, none, 1, none⟩] "text"
    [⟨none, none, none, none, none, none⟩, ⟨none, some "photo", none, none, none, none⟩]
    [⟨some "18:00", some "photo", none, none, none, none⟩,
      ⟨none, none, none, none, none, none⟩] (by decide)

lemma assignPosts_length (refs : Option (List RefMessage)) (msgs : List SourceMessage) :
    ∀ (posts : List PlannedPost) (c : String → ℕ),
      (assignPosts refs msgs posts c).1.length = posts.length := by
  intro posts
  induction posts with
  | nil => intro c; rfl
  | cons p ps ih => intro c; simp only [assignPosts, List.length_cons, ih]

/-- C6: with no (resolving) explicit override, the matcher's pool is the
partition for the post's content type, falling back to the `text`
partition and then to the whole list; an empty final pool yields `none`
with the counters untouched; the export then renders the post without a
bubble block (and with its other blocks intact), and every post still
receives an assignment slot — no error interrupts the run. -/
theorem matcher_fallback_no_match :
    ∀ (refs : Option (List RefMessage)) (msgs : List SourceMessage) (post : PlannedPost)
      (c : String → ℕ) (posts : List PlannedPost) (split : ℤ → String → List String)
      (stripE : String → String) (parse : String → Option (List Reaction))
      (channelW : ℤ) (s : TraceState),
      overrideResult refs post = none →
      (msgs.filter (fun m => jsStrOr m.content_type "text" == jsStrOr post.type "text") ≠ [] →
          poolFor msgs (jsStrOr post.type "text") =
            msgs.filter (fun m => jsStrOr m.content_type "text" == jsStrOr post.type "text")) ∧
      (msgs.filter (fun m => jsStrOr m.content_type "text" == jsStrOr post.type "text") = [] →
          msgs.filter (fun m => jsStrOr m.content_type "text" == "text") ≠ [] →
          poolFor msgs (jsStrOr post.type "text") =
            msgs.filter (fun m => jsStrOr m.content_type "text" == "text")) ∧
      (msgs.filter (fun m => jsStrOr m.content_type "text" == jsStrOr post.type "text") = [] →
          msgs.filter (fun m => jsStrOr m.content_type "text" == "text") = [] →
          poolFor msgs (jsStrOr post.type "text") = msgs) ∧
      (poolFor msgs (jsStrOr post.type "text") = [] →
          getRefMessage refs msgs c post = (none, c)) ∧
      ((getRefMessage refs msgs s.counters post).1 = none →
          (drawPost split stripE parse refs msgs channelW post s).1.filter
            (fun b => b.kind == BlockKind.bubble) = []) ∧
      (assignPosts refs msgs posts c).1.length = posts.length := by
  intro refs msgs post c posts split stripE parse channelW s ho
  refine ⟨?_, ?_, ?_, ?_, ?_, assignPosts_length refs msgs posts c⟩
  · intro hne
    rw [poolFor, byTypeLookup, if_neg hne]
  · intro h1 h2
    rw [poolFor, byTypeLookup, if_pos h1, byTypeLookup, if_neg h2]
  · intro h1 h2
    rw [poolFor, byTypeLookup, if_pos h1, byTypeLookup, if_pos h2]
  · intro hp
    simp only [getRefMessage, ho, dif_pos hp]
  · intro hnone
    have hsc : (stepPage 110 s).counters = s.counters := by
      rw [stepPage]
      split_ifs <;> rfl
    simp only [drawPost, hsc, hnone]
    split_ifs <;> rfl

/-- Witness for C6: a voice post against an empty pool — the override is
absent and the final pool is empty, so no bubble is produced anywhere. -/
theorem matcher_fallback_no_match_witness :
    (([] : List SourceMessage).filter
        (fun m => jsStrOr m.content_type "text" ==
          jsStrOr (some "voice") "text") ≠ [] →
        poolFor [] (jsStrOr (some "voice") "text") =
          ([] : List SourceMessage).filter
            (fun m => jsStrOr m.content_type "text" == jsStrOr (some "voice") "text")) ∧
    (([] : List SourceMessage).filter
        (fun m => jsStrOr m.content_type "text" == jsStrOr (some "voice") "text") = [] →
        ([] : List SourceMessage).filter
          (fun m => jsStrOr m.content_type "text" == "text") ≠ [] →
        poolFor [] (jsStrOr (some "voice") "text") =
          ([] : List SourceMessage).filter
            (fun m => jsStrOr m.content_type "text" == "text")) ∧
    (([] : List SourceMessage).filter
        (fun m => jsStrOr m.content_type "text" == jsStrOr (some "voice") "text") = [] →
        ([] : List SourceMessage).filter
          (fun m => jsStrOr m.content_type "text" == "text") = [] →
        poolFor [] (jsStrOr (some "voice") "text") = []) ∧
    (poolFor [] (jsStrOr (some "voice") "text") = [] →
        getRefMessage none [] (fun _ => 0) ⟨none, some "voice", none, none, none, none⟩ =
          (none, fun _ => 0)) ∧
    ((getRefMessage none [] (⟨1, 40, fun _ => 0⟩ : TraceState).counters
          ⟨none, some "voice", none, none, none, none⟩).1 = none →
        (drawPost (fun _ s => [s]) id (fun _ => none) none [] 360
            ⟨none, some "voice", none, none, none, none⟩ ⟨1, 40, fun _ => 0⟩).1.filter
          (fun b => b.kind == BlockKind.bubble) = []) ∧
    (assignPosts none []
        [(⟨none, some "voice", none, none, none, none⟩ : PlannedPost)]
        (fun _ => 0)).1.length =
      [(⟨none, some "voice", none, none, none, none⟩ : PlannedPost)].length :=
  matcher_fallback_no_match none [] ⟨none, some "voice", none, none, none, none⟩
    (fun _ => 0) [⟨none, some "voice", none, none, none, none⟩] (fun _ s => [s]) id
    (fun _ => none) 360 ⟨1, 40, fun _ => 0⟩ (by decide)

lemma GoodRun.append {s s1 s2 : TraceState} {l1 l2 : List Placed}
    (h1 : GoodRun s (l1, s1)) (h2 : GoodRun s1 (l2, s2)) :
    GoodRun s (l1 ++ l2, s2) := by
  refine ⟨?_, h2.2.1, le_trans h1.2.2 h2.2.2⟩
  intro b hb
  rcases List.mem_append.mp hb with hb | hb
  · obtain ⟨hg, hb1, hb2⟩ := h1.1 b hb
    exact ⟨hg, hb1, le_trans hb2 h2.2.2⟩
  · obtain ⟨hg, hb1, hb2⟩ := h2.1 b hb
    exact ⟨hg, le_trans h1.2.2 hb1, hb2⟩

lemma stepPage_clear (n : ℤ) (s : TraceState) (hn : n ≤ 524) (hy : 40 ≤ s.y) :
    40 ≤ (stepPage n s).y ∧ (stepPage n s).y + n ≤ pageBottom ∧
      s.page ≤ (stepPage n s).page ∧ (stepPage n s).counters = s.counters := by
  rw [stepPage]
  split_ifs with h
  · refine ⟨by norm_num, ?_, Nat.le_succ _, rfl⟩
    simp only [pageBottom, pageHeight]
    omega
  · refine ⟨hy, ?_, le_refl _, rfl⟩
    simp only [pageBottom, pageHeight] at h ⊢
    omega

lemma measureHeight_nonneg (split : ℤ → String → List String) (stripE : String → String)
    (parse : String → Option (List Reaction)) (width : ℤ) (msg : SourceMessage) :
    0 ≤ measureHeight split stripE parse width msg := by
  rw [measureHeight]
  split_ifs <;> omega

lemma drawPost_good (split : ℤ → String → List String) (stripE : String → String)
    (parse : String → Option (List Reaction)) (refs : Option (List RefMessage))
    (msgs : List SourceMessage) (channelW : ℤ) (post : PlannedPost) :
    ∀ s : TraceState, 40 ≤ s.y →
      GoodRun s (drawPost split stripE parse refs msgs channelW post s) := by
  intro s hy
  obtain ⟨ha, hb, hc, _⟩ := stepPage_clear 110 s (by norm_num) hy
  have hL : (0 : ℤ) ≤ ((split (channelW - 8)
      (jsStrOr post.content_brief (jsStrOr post.topic ""))).length : ℤ) :=
    Int.natCast_nonneg _
  simp only [drawPost]
  by_cases hcta : jsTruthy post.cta
  · simp only [if_pos hcta]
    rcases hr : (getRefMessage refs msgs (stepPage 110 s).counters post).1 with _ | msg
    · refine ⟨?_, by (try dsimp only); omega, hc⟩
      intro b hbm
      simp only [List.mem_append, List.mem_cons, List.mem_singleton, List.mem_nil_iff,
        or_false, or_assoc] at hbm
      rcases hbm with rfl | rfl
      · exact ⟨⟨ha, fun h => by simp at h, fun _ => hb, fun h => by simp at h⟩, hc, le_refl _⟩
      · exact ⟨⟨by (try dsimp only); omega, fun h => by simp at h, fun h => by simp at h,
          fun h => by simp at h⟩, hc, le_refl _⟩
    · obtain ⟨ha5, hb5, hc5, _⟩ := stepPage_clear 70
        ⟨(stepPage 110 s).page,
          (stepPage 110 s).y + 10 + ((split (channelW - 8)
            (jsStrOr post.content_brief (jsStrOr post.topic ""))).length : ℤ) * 8 + 2 + 8 + 4,
          (getRefMessage refs msgs (stepPage 110 s).counters post).2⟩
        (by norm_num) (by (try dsimp only); omega)
      have hbh := measureHeight_nonneg split stripE parse (channelW - 16) msg
      refine ⟨?_, by (try dsimp only); omega, le_trans hc hc5⟩
      intro b hbm
      simp only [List.mem_append, List.mem_cons, List.mem_singleton, List.mem_nil_iff,
        or_false, or_assoc] at hbm
      rcases hbm with rfl | rfl | rfl
      · exact ⟨⟨ha, fun h => by simp at h, fun _ => hb, fun h => by simp at h⟩, hc, hc5⟩
      · exact ⟨⟨by (try dsimp only); omega, fun h => by simp at h, fun h => by simp at h,
          fun h => by simp at h⟩, hc, hc5⟩
      · exact ⟨⟨by (try dsimp only); omega, fun h => by simp at h,
          fun h => by simp at h, fun _ => by (try dsimp only); omega⟩,
          le_trans hc hc5, le_refl _⟩
  · simp only [if_neg hcta]
    rcases hr : (getRefMessage refs msgs (stepPage 110 s).counters post).1 with _ | msg
    · refine ⟨?_, by (try dsimp only); omega, hc⟩
      intro b hbm
      simp only [List.mem_append, List.mem_cons, List.mem_singleton, List.mem_nil_iff,
        List.append_nil, or_false, or_assoc] at hbm
      rcases hbm with rfl
      exact ⟨⟨ha, fun h => by simp at h, fun _ => hb, fun h => by simp at h⟩, hc, le_refl _⟩
    · obtain ⟨ha5, hb5, hc5, _⟩ := stepPage_clear 70
        ⟨(stepPage 110 s).page,
          (stepPage 110 s).y + 10 + ((split (channelW - 8)
            (jsStrOr post.content_brief (jsStrOr post.topic ""))).length : ℤ) * 8 + 2 + 4,
          (getRefMessage refs msgs (stepPage 110 s).counters post).2⟩
        (by norm_num) (by (try dsimp only); omega)
      have hbh := measureHeight_nonneg split stripE parse (channelW - 16) msg
      refine ⟨?_, by (try dsimp only); omega, le_trans hc hc5⟩
      intro b hbm
      simp only [List.mem_append, List.mem_cons, List.mem_singleton, List.mem_nil_iff,
        List.nil_append, or_false, or_assoc] at hbm
      rcases hbm with rfl | rfl
      · exact ⟨⟨ha, fun h => by simp at h, fun _ => hb, fun h => by simp at h⟩, hc, hc5⟩
      · exact ⟨⟨by (try dsimp only); omega, fun h => by simp at h,
          fun h => by simp at h, fun _ => by (try dsimp only); omega⟩,
          le_trans hc hc5, le_refl _⟩

lemma drawPosts_good (split : ℤ → String → List String) (stripE : String → String)
    (parse : String → Option (List Reaction)) (refs : Option (List RefMessage))
    (msgs : List SourceMessage) (channelW : ℤ) :
    ∀ (posts : List PlannedPost) (s : TraceState), 40 ≤ s.y →
      GoodRun s (drawPosts split stripE parse refs msgs channelW posts s) := by
  intro posts
  induction posts with
  | nil => intro s hy; exact ⟨fun b hb => absurd hb (List.not_mem_nil b), hy, le_refl _⟩
  | cons p ps ih =>
    intro s hy
    have h1 := drawPost_good split stripE parse refs msgs channelW p s hy
    have h2 := ih (drawPost split stripE parse refs msgs channelW p s).2 h1.2.1
    simpa only [drawPosts] using GoodRun.append h1 h2

lemma drawDay_good (split : ℤ → String → List String) (stripE : String → String)
    (parse : String → Option (List Reaction)) (refs : Option (List RefMessage))
    (msgs : List SourceMessage) (channelW : ℤ) (day : DayPlan) :
    ∀ s : TraceState, 40 ≤ s.y →
      GoodRun s (drawDay split stripE parse refs msgs channelW day s) := by
  intro s hy
  obtain ⟨ha, hb, hc, _⟩ := stepPage_clear 30 s (by norm_num) hy
  have hp := drawPosts_good split stripE parse refs msgs channelW day.posts
    ⟨(stepPage 30 s).page, (stepPage 30 s).y + 18, (stepPage 30 s).counters⟩
    (by dsimp only; omega)
  simp only [drawDay]
  refine ⟨?_, by have hy2 := hp.2.1; (try dsimp only); omega, le_trans hc hp.2.2⟩
  intro b hbm
  rcases List.mem_cons.mp hbm with rfl | hbm
  · exact ⟨⟨ha, fun _ => ⟨hb, rfl⟩, fun h => by simp at h, fun h => by simp at h⟩,
      hc, hp.2.2⟩
  · obtain ⟨hg, hb1, hb2⟩ := hp.1 b hbm
    exact ⟨hg, le_trans hc hb1, hb2⟩

lemma drawDays_good (split : ℤ → String → List String) (stripE : String → String)
    (parse : String → Option (List Reaction)) (refs : Option (List RefMessage))
    (msgs : List SourceMessage) (channelW : ℤ) :
    ∀ (days : List DayPlan) (s : TraceState), 40 ≤ s.y →
      GoodRun s (drawDays split stripE parse refs msgs channelW days s) := by
  intro days
  induction days with
  | nil => intro s hy; exact ⟨fun b hb => absurd hb (List.not_mem_nil b), hy, le_refl _⟩
  | cons d ds ih =>
    intro s hy
    have h1 := drawDay_good split stripE parse refs msgs channelW d s hy
    have h2 := ih (drawDay split stripE parse refs msgs channelW d s).2 h1.2.1
    simpa only [drawDays] using GoodRun.append h1 h2

lemma dailySection_good (split : ℤ → String → List String) (stripE : String → String)
    (parse : String → Option (List Reaction)) (refs : Option (List RefMessage))
    (msgs : List SourceMessage) (channelW : ℤ) (days : List DayPlan) (y₀ : ℤ)
    (hy : 40 ≤ y₀) :
    GoodRun ⟨1, y₀, fun _ => 0⟩
      (dailySection split stripE parse refs msgs channelW days y₀) := by
  obtain ⟨ha, _, hc, _⟩ := stepPage_clear 40 ⟨1, y₀, fun _ => 0⟩ (by norm_num) hy
  have hd := drawDays_good split stripE parse refs msgs channelW days
    ⟨(stepPage 40 ⟨1, y₀, fun _ => 0⟩).page, (stepPage 40 ⟨1, y₀, fun _ => 0⟩).y + 16,
      (stepPage 40 ⟨1, y₀, fun _ => 0⟩).counters⟩ (by dsimp only; omega)
  simp only [dailySection]
  refine ⟨?_, hd.2.1, le_trans hc hd.2.2⟩
  intro b hbm
  obtain ⟨hg, hb1, hb2⟩ := hd.1 b hbm
  exact ⟨hg, le_trans hc hb1, hb2⟩

/-- C4 counterexample: in the plan generated from `cexDay` the reference
bubble is placed on page 1 at 119.5 mm (239) with height 60 mm (120),
extending to 299 mm (598) — past the 282 mm (564) bottom margin and past
the page itself; `addPageIfNeeded(35)` had passed, so the block was not
moved whole to the next page even though it did not fit. -/
theorem pagination_containment_cex :
    ∃ b ∈ (dailySection cexSplit id cexParse none [cexMsg] 360 [cexDay] preambleY).1,
      b.kind = BlockKind.bubble ∧ b.page = 1 ∧ pageBottom < b.top + b.height := by
  decide

/-- C4 amended: every placed block starts at or below the 20 mm top
cursor and enjoys exactly the clearance its `addPageIfNeeded` call
checked — 15 mm for a day header (which therefore always fits its 7 mm
band entirely), 55 mm for a post-info paragraph and 35 mm before a
bubble — but a block whose drawn height exceeds that fixed clearance can
extend past the bottom margin; no page break ever occurs while a block is
being drawn. -/
theorem pagination_block_clearances :
    ∀ (split : ℤ → String → List String) (stripE : String → String)
      (parse : String → Option (List Reaction)) (refs : Option (List RefMessage))
      (msgs : List SourceMessage) (channelW : ℤ) (days : List DayPlan) (y₀ : ℤ),
      40 ≤ y₀ →
      ∀ b ∈ (dailySection split stripE parse refs msgs channelW days y₀).1,
        GoodBlock b := by
  intro split stripE parse refs msgs channelW days y₀ hy b hb
  exact ((dailySection_good split stripE parse refs msgs channelW days y₀ hy).1 b hb).1

/-- Witness for the amended C4 at a concrete one-day plan: its day-header
block. -/
theorem pagination_block_clearances_witness :
    GoodBlock ⟨BlockKind.dayHeader, 1, 56, 14⟩ :=
  pagination_block_clearances (fun _ s => [s]) id (fun _ => none) none [] 360
    [⟨1, []⟩] 40 (by decide) ⟨BlockKind.dayHeader, 1, 56, 14⟩ (by decide)

/-- C8: the footer loop shared by `exportPlanToPdf` and
`exportPersonaToPdf` runs only after every block is placed: for a
finished document of `total` pages it stamps exactly one footer per page
`i = 1 .. total` reading `Page i/total`, and every placed block of the
plan trace lies on a page between 1 and the final page count, so every
content page receives a footer naming the true total. -/
theorem footer_stamping :
    ∀ total : ℕ,
      (stampFooters total).length = total ∧
      (∀ i, 1 ≤ i → i ≤ total → (i, mkFooter i total) ∈ stampFooters total) ∧
      (∀ (split : ℤ → String → List String) (stripE : String → String)
        (parse : String → Option (List Reaction)) (refs : Option (List RefMessage))
        (msgs : List SourceMessage) (channelW : ℤ) (days : List DayPlan) (y₀ : ℤ),
        40 ≤ y₀ →
        ∀ b ∈ (dailySection split stripE parse refs msgs channelW days y₀).1,
          1 ≤ b.page ∧
            b.page ≤ (dailySection split stripE parse refs msgs channelW days y₀).2.page) := by
  intro total
  refine ⟨by simp [stampFooters], ?_, ?_⟩
  · intro i h1 h2
    rw [stampFooters]
    refine List.mem_map.mpr ⟨i - 1, List.mem_range.mpr (by omega), ?_⟩
    have h3 : i - 1 + 1 = i := by omega
    rw [h3]
  · intro split stripE parse refs msgs channelW days y₀ hy b hb
    have h := (dailySection_good split stripE parse refs msgs channelW days y₀ hy).1 b hb
    exact ⟨h.2.1, h.2.2⟩

/-- Witness for C8 at a two-page document. -/
theorem footer_stamping_witness :
    (stampFooters 2).length = 2 ∧ (1, mkFooter 1 2) ∈ stampFooters 2 :=
  ⟨(footer_stamping 2).1, (footer_stamping 2).2.1 1 (by decide) (by decide)⟩
